import Mathlib

/-!
Verification development for the `synth` repository: a shallow embedding of
the synthesis engine (`src/synth_engine.c`), the parameter queue
(`src/param_queue.c`), and the device-event decoder (`src/midi_input.c`),
with theorems settling the specification's testable properties.

Machine floats are modelled by exact rationals (`ℚ`); the transcendental
library calls (`sinf`, `powf`) are threaded as explicit function parameters;
the final output stage, whose property rests on the boundedness of `tanhf`,
is modelled over `ℝ` with `Real.tanh`.
-/

namespace Synth

/-- `clamp` from `src/synth_engine.c`: clamps `value` into `[min, max]`. -/
def clamp (value lo hi : ℚ) : ℚ :=
  if value < lo then lo
  else if value > hi then hi
  else value

/-- `lerp` from `src/synth_engine.c`: linear interpolation `a + (b-a)*t`. -/
def lerp (a b t : ℚ) : ℚ := a + (b - a) * t

/-! ## Parameter messages (`src/synth_types.h`) -/

/-- The `ParamType` tag of `src/synth_types.h`: which member of the value
union is stored. -/
inductive ParamValue where
  | float (f : ℚ)
  | int (i : ℤ)
  | bool (b : Bool)
deriving DecidableEq, Repr

/-- `ParamId` from `src/synth_types.h` (the amplitude-envelope ADSR
identifiers are written `PARAM_ENV_AMP_*` in `src/synth_engine.c`, whose
defining header is not in the tree; `src/synth_types.h` lists the same four
identifiers as `PARAM_ENV_*`). -/
inductive ParamId where
  | masterVolume
  | tempo
  | fxDistortionEnabled
  | fxDistortionDrive
  | fxDistortionMix
  | fxChorusEnabled
  | fxChorusRate
  | fxChorusDepth
  | fxChorusMix
  | fxCompEnabled
  | fxCompThreshold
  | fxCompRatioId
  | fxDelayEnabled
  | fxDelayTime
  | fxDelayFeedback
  | fxDelayMix
  | fxReverbEnabled
  | fxReverbSize
  | fxReverbDamping
  | fxReverbMix
  | arpEnabled
  | arpRate
  | arpMode
  | filterCutoff
  | filterResonance
  | filterMode
  | filterEnvAmount
  | envAmpAttack
  | envAmpDecay
  | envAmpSustain
  | envAmpRelease
  | panicId
deriving DecidableEq, Repr

/-- `ParamMsg` from `src/synth_types.h`: a parameter identifier plus a
tagged value. -/
structure ParamMsg where
  id : ParamId
  value : ParamValue
deriving DecidableEq, Repr

/-- Modelled from the spec: `param_msg_get_float` (its defining header is
not in `src/`). Per §3 of the spec a parameter message is "a tagged value
(float/int/bool) keyed by a parameter identifier"; the float accessor reads
the value numerically. -/
def paramMsgGetFloat (m : ParamMsg) : ℚ :=
  match m.value with
  | .float f => f
  | .int i => (i : ℚ)
  | .bool b => if b then 1 else 0

/-- Modelled from the spec: `param_msg_get_int` (its defining header is not
in `src/`); the integer accessor reads the tagged value as an integer. -/
def paramMsgGetInt (m : ParamMsg) : ℤ :=
  match m.value with
  | .float f => ⌊f⌋
  | .int i => i
  | .bool b => if b then 1 else 0

/-! ## Parameter queue (`src/param_queue.c`)

`src/param_queue.c` stores `ParamMsg` entries in a PortAudio
`PaUtilRingBuffer` of `PARAM_QUEUE_SIZE` elements.  The ring buffer
implementation itself (`pa_ringbuffer.c`) is not in `src/`, so its FIFO
semantics are modelled from the spec (§3 "Ring Buffer": fixed-capacity
circular storage, write fails when full, no entry partially written or
read; §4.8: within one queue messages are delivered in enqueue order).
The queue content is modelled as the list of enqueued-but-not-yet-dequeued
messages, oldest first. -/

/-- `PARAM_QUEUE_SIZE` from `src/param_queue.h`. -/
def PARAM_QUEUE_SIZE : ℕ := 256

/-- `param_queue_enqueue` from `src/param_queue.c`: writes one message;
returns the new queue content and `true` on success, or the unchanged
queue and `false` when the ring buffer is full (the message is dropped;
the call never blocks). -/
def paramQueueEnqueue (q : List ParamMsg) (m : ParamMsg) : List ParamMsg × Bool :=
  if q.length < PARAM_QUEUE_SIZE then (q ++ [m], true) else (q, false)

/-- `param_queue_dequeue` from `src/param_queue.c`: reads one message if
available (`some (msg, rest)`), otherwise reports emptiness (`none`, the
C function returning `false`). -/
def paramQueueDequeue (q : List ParamMsg) : Option (ParamMsg × List ParamMsg) :=
  match q with
  | [] => none
  | m :: rest => some (m, rest)

/-- `param_queue_drain` from `src/param_queue.c`: repeatedly dequeues until
the queue is empty, returning the messages in the order they were handed to
the handler. -/
def paramQueueDrain (q : List ParamMsg) : List ParamMsg :=
  match _hq : paramQueueDequeue q with
  | none => []
  | some (m, rest) => m :: paramQueueDrain rest
  termination_by q.length
  decreasing_by
    cases q with
    | nil => simp [paramQueueDequeue] at _hq
    | cons a l =>
      simp only [paramQueueDequeue, Option.some.injEq, Prod.mk.injEq] at _hq
      simp [← _hq.2]

/-- Enqueue a whole list of messages in order, collecting each call's
boolean result. -/
def paramQueueEnqueueAll (q : List ParamMsg) : List ParamMsg → List ParamMsg × List Bool
  | [] => (q, [])
  | m :: ms =>
    let r1 := paramQueueEnqueue q m
    let r2 := paramQueueEnqueueAll r1.1 ms
    (r2.1, r1.2 :: r2.2)

theorem paramQueueDrain_eq (q : List ParamMsg) : paramQueueDrain q = q := by
  induction q with
  | nil =>
    rw [paramQueueDrain]
    rfl
  | cons m rest ih =>
    rw [paramQueueDrain]
    show m :: paramQueueDrain rest = m :: rest
    rw [ih]

theorem paramQueueEnqueueAll_ok (msgs : List ParamMsg) :
    ∀ q : List ParamMsg, q.length + msgs.length ≤ PARAM_QUEUE_SIZE →
      paramQueueEnqueueAll q msgs = (q ++ msgs, List.replicate msgs.length true) := by
  induction msgs with
  | nil => intro q _; simp [paramQueueEnqueueAll]
  | cons m ms ih =>
    intro q hlen
    have hq : q.length < PARAM_QUEUE_SIZE := by
      simp only [List.length_cons] at hlen; omega
    have h1 : paramQueueEnqueue q m = (q ++ [m], true) := by
      simp [paramQueueEnqueue, hq]
    have h2 : (q ++ [m]).length + ms.length ≤ PARAM_QUEUE_SIZE := by
      simp only [List.length_append, List.length_cons, List.length_nil] at hlen ⊢
      omega
    simp [paramQueueEnqueueAll, h1, ih _ h2, List.replicate_succ]

/-- C1: starting from an empty parameter queue, a sequence of N ≤ 256
successful `param_queue_enqueue` calls followed by a full drain yields
exactly those N messages in the same order: every enqueue succeeds and the
drain returns the enqueued list itself. -/
theorem c1_queue_fifo (msgs : List ParamMsg) (h : msgs.length ≤ PARAM_QUEUE_SIZE) :
    (paramQueueEnqueueAll [] msgs).2 = List.replicate msgs.length true ∧
    paramQueueDrain (paramQueueEnqueueAll [] msgs).1 = msgs := by
  have := paramQueueEnqueueAll_ok msgs [] (by simpa using h)
  rw [this]
  simp [paramQueueDrain_eq]

/-- Witness for C1 at a concrete three-message sequence. -/
theorem c1_queue_fifo_witness :
    ([⟨.masterVolume, .float (1/2)⟩, ⟨.tempo, .float 140⟩,
      ⟨.panicId, .bool true⟩] : List ParamMsg).length ≤ PARAM_QUEUE_SIZE ∧
    ((paramQueueEnqueueAll []
        [⟨.masterVolume, .float (1/2)⟩, ⟨.tempo, .float 140⟩,
         ⟨.panicId, .bool true⟩]).2 =
      List.replicate 3 true ∧
    paramQueueDrain (paramQueueEnqueueAll []
        [⟨.masterVolume, .float (1/2)⟩, ⟨.tempo, .float 140⟩,
         ⟨.panicId, .bool true⟩]).1 =
      [⟨.masterVolume, .float (1/2)⟩, ⟨.tempo, .float 140⟩,
       ⟨.panicId, .bool true⟩]) :=
  ⟨by decide, c1_queue_fifo _ (by decide)⟩

theorem paramQueueEnqueueAll_append (xs ys : List ParamMsg) :
    ∀ q : List ParamMsg,
      paramQueueEnqueueAll q (xs ++ ys) =
        ((paramQueueEnqueueAll (paramQueueEnqueueAll q xs).1 ys).1,
         (paramQueueEnqueueAll q xs).2 ++
           (paramQueueEnqueueAll (paramQueueEnqueueAll q xs).1 ys).2) := by
  induction xs with
  | nil => intro q; simp [paramQueueEnqueueAll]
  | cons m ms ih =>
    intro q
    simp only [List.cons_append, paramQueueEnqueueAll, List.append_eq, ih,
      List.cons_append]

/-- C2: enqueuing `PARAM_QUEUE_SIZE + 1` (257) messages into an empty
parameter queue makes the first 256 `param_queue_enqueue` calls return
`true` and exactly the 257th return `false` (the message is dropped, the
call does not block), and a subsequent full drain dequeues exactly the
first 256 messages. -/
theorem c2_queue_overflow (msgs : List ParamMsg)
    (h : msgs.length = PARAM_QUEUE_SIZE + 1) :
    (paramQueueEnqueueAll [] msgs).2 =
      List.replicate PARAM_QUEUE_SIZE true ++ [false] ∧
    paramQueueDrain (paramQueueEnqueueAll [] msgs).1 =
      msgs.take PARAM_QUEUE_SIZE ∧
    (paramQueueDrain (paramQueueEnqueueAll [] msgs).1).length =
      PARAM_QUEUE_SIZE := by
  have htake : (msgs.take PARAM_QUEUE_SIZE).length = PARAM_QUEUE_SIZE := by
    simp [h]
  obtain ⟨x, hx⟩ : ∃ x, msgs.drop PARAM_QUEUE_SIZE = [x] := by
    have hlen1 : (msgs.drop PARAM_QUEUE_SIZE).length = 1 := by
      simp [h]
    match hd : msgs.drop PARAM_QUEUE_SIZE with
    | [y] => exact ⟨y, rfl⟩
    | [] => rw [hd] at hlen1; simp at hlen1
    | y :: z :: t => rw [hd] at hlen1; simp at hlen1
  have hsplit : msgs = msgs.take PARAM_QUEUE_SIZE ++ [x] := by
    conv_lhs => rw [← List.take_append_drop PARAM_QUEUE_SIZE msgs]
    rw [hx]
  have h1 := paramQueueEnqueueAll_ok (msgs.take PARAM_QUEUE_SIZE) []
    (by simp [htake])
  have hfull : paramQueueEnqueue (msgs.take PARAM_QUEUE_SIZE) x =
      (msgs.take PARAM_QUEUE_SIZE, false) := by
    simp [paramQueueEnqueue, htake]
  have hEA : paramQueueEnqueueAll [] msgs =
      (msgs.take PARAM_QUEUE_SIZE,
       List.replicate PARAM_QUEUE_SIZE true ++ [false]) := by
    conv_lhs => rw [hsplit]
    rw [paramQueueEnqueueAll_append, h1]
    simp only [List.nil_append, htake]
    simp [paramQueueEnqueueAll, hfull]
  rw [hEA]
  exact ⟨rfl, paramQueueDrain_eq _, by rw [paramQueueDrain_eq]; exact htake⟩

/-- Witness for C2 at a concrete 257-message sequence. -/
theorem c2_queue_overflow_witness :
    (List.replicate (PARAM_QUEUE_SIZE + 1)
        (⟨ParamId.tempo, ParamValue.float 120⟩ : ParamMsg)).length =
      PARAM_QUEUE_SIZE + 1 ∧
    ((paramQueueEnqueueAll []
        (List.replicate (PARAM_QUEUE_SIZE + 1)
          (⟨ParamId.tempo, ParamValue.float 120⟩ : ParamMsg))).2 =
      List.replicate PARAM_QUEUE_SIZE true ++ [false] ∧
    paramQueueDrain (paramQueueEnqueueAll []
        (List.replicate (PARAM_QUEUE_SIZE + 1)
          (⟨ParamId.tempo, ParamValue.float 120⟩ : ParamMsg))).1 =
      (List.replicate (PARAM_QUEUE_SIZE + 1)
        (⟨ParamId.tempo, ParamValue.float 120⟩ : ParamMsg)).take PARAM_QUEUE_SIZE ∧
    (paramQueueDrain (paramQueueEnqueueAll []
        (List.replicate (PARAM_QUEUE_SIZE + 1)
          (⟨ParamId.tempo, ParamValue.float 120⟩ : ParamMsg))).1).length =
      PARAM_QUEUE_SIZE) :=
  ⟨by simp, c2_queue_overflow _ (by simp)⟩

/-! ## Device-event decoder (`src/midi_input.c`)

Bytes are modelled as natural numbers (the C `uint8_t` values), the queue
push as emission of the decoded event: `midi_handle_message` returns the
event it pushes (or `none` for an unrecognized status nibble), and
`midi_parse_packet` returns the list of events pushed, in order. -/

/-- `MidiEventType` from `src/synth_types.h`. -/
inductive MidiEventType where
  | noteOn
  | noteOff
  | controlChange
  | pitchBend
  | aftertouch
  | programChange
deriving DecidableEq, Repr

/-- `MidiEvent` from `src/synth_types.h`. -/
structure MidiEvent where
  type : MidiEventType
  channel : ℕ
  data1 : ℕ
  data2 : ℕ
deriving DecidableEq, Repr

/-- `midi_handle_message` from `src/midi_input.c`: builds the typed event
for one complete message (status byte plus data bytes); a note-on whose
velocity byte is 0 is normalized to a note-off; unrecognized status
nibbles produce no event. -/
def midiHandleMessage (status data1 data2 : ℕ) : Option MidiEvent :=
  let statusType := status &&& 0xF0
  let channel := status &&& 0x0F
  if statusType = 0x80 then
    some ⟨.noteOff, channel, data1, data2⟩
  else if statusType = 0x90 then
    if data2 = 0 then
      some ⟨.noteOff, channel, data1, data2⟩
    else
      some ⟨.noteOn, channel, data1, data2⟩
  else if statusType = 0xA0 then
    some ⟨.aftertouch, channel, data1, data2⟩
  else if statusType = 0xB0 then
    some ⟨.controlChange, channel, data1, data2⟩
  else if statusType = 0xC0 then
    some ⟨.programChange, channel, data1, 0⟩
  else if statusType = 0xD0 then
    some ⟨.aftertouch, channel, 0, data1⟩
  else if statusType = 0xE0 then
    some ⟨.pitchBend, channel, data1, data2⟩
  else
    none

/-- `midi_parse_packet` from `src/midi_input.c`: streaming decode of one
packet.  A byte with the high bit set replaces the running status; a data
byte with no running status is skipped; program-change/channel-pressure
classes consume one data byte; note/CC/poly-pressure/pitch-bend classes
consume two and stop (awaiting more bytes) when the second is missing;
other status classes skip one byte.  The running status starts at 0 for
each packet. -/
def midiParsePacket (runningStatus : ℕ) : List ℕ → List MidiEvent
  | [] => []
  | b :: rest =>
    if b &&& 0x80 ≠ 0 then
      midiParsePacket b rest
    else if runningStatus = 0 then
      midiParsePacket runningStatus rest
    else
      let statusType := runningStatus &&& 0xF0
      if statusType = 0xC0 ∨ statusType = 0xD0 then
        (midiHandleMessage runningStatus b 0).toList ++
          midiParsePacket runningStatus rest
      else if statusType = 0x80 ∨ statusType = 0x90 ∨ statusType = 0xA0 ∨
          statusType = 0xB0 ∨ statusType = 0xE0 then
        match rest with
        | [] => []
        | b2 :: rest2 =>
          (midiHandleMessage runningStatus b b2).toList ++
            midiParsePacket runningStatus rest2
      else
        midiParsePacket runningStatus rest

/-- C4: fed `[0x90,60,100, 62,100, 64,0]` as one packet, the decoder emits
exactly note-on(60,100), note-on(62,100), note-off(64) in order; the
second and third messages decode the same way under the stored running
status `0x90`; and a note-on with velocity byte 0 is normalized to a
note-off event. -/
theorem c4_decoder_running_status :
    midiParsePacket 0 [0x90, 60, 100, 62, 100, 64, 0] =
      [⟨.noteOn, 0, 60, 100⟩, ⟨.noteOn, 0, 62, 100⟩, ⟨.noteOff, 0, 64, 0⟩] ∧
    midiParsePacket 0x90 [62, 100, 64, 0] =
      [⟨.noteOn, 0, 62, 100⟩, ⟨.noteOff, 0, 64, 0⟩] ∧
    midiHandleMessage 0x90 64 0 = some ⟨.noteOff, 0, 64, 0⟩ := by
  decide

/-! ## Envelope (`src/synth_engine.c`) -/

/-- `EnvelopeState` from `src/synth_engine.h`. -/
inductive EnvState where
  | attack
  | decay
  | sustain
  | release
  | off
deriving DecidableEq, Repr

/-- `Envelope` from `src/synth_engine.h`. -/
structure Envelope where
  attack : ℚ
  decay : ℚ
  sustain : ℚ
  release : ℚ
  state : EnvState
  current_level : ℚ
  target_level : ℚ
  velocity_sensitivity : ℚ
  velocity : ℚ
  retrigger : Bool
  loop : Bool
deriving DecidableEq, Repr

/-- `envelope_init` from `src/synth_engine.c`. -/
def envelopeInit : Envelope :=
  { attack := 1/100, decay := 1/10, sustain := 7/10, release := 3/10,
    state := .off, current_level := 0, target_level := 0,
    velocity_sensitivity := 1/2, velocity := 0,
    retrigger := false, loop := false }

/-- `envelope_trigger` from `src/synth_engine.c`: enters Attack with a
target scaled by the velocity/sensitivity blend; retrigger resets the
level to 0. -/
def envelopeTrigger (e : Envelope) (velocity : ℚ) : Envelope :=
  let velMod := lerp 1 velocity e.velocity_sensitivity
  let e' := { e with velocity := velocity, state := .attack,
                     target_level := 1 * velMod }
  if e.retrigger then { e' with current_level := 0 } else e'

/-- `envelope_release` from `src/synth_engine.c`. -/
def envelopeRelease (e : Envelope) : Envelope :=
  { e with state := .release, target_level := 0 }

/-- `envelope_process` from `src/synth_engine.c`: advances the envelope by
one sample and returns the new envelope state together with the returned
level (`clamp(current_level, 0, 1)`; 0 when Off). -/
def envelopeProcess (e : Envelope) (sampleRate : ℚ) : Envelope × ℚ :=
  match e.state with
  | .off => (e, 0)
  | .attack =>
    let e' :=
      if e.attack > 0 then
        let rate := 1 / (e.attack * sampleRate)
        let l := e.current_level + rate
        if l ≥ e.target_level then
          { e with current_level := e.target_level, state := .decay }
        else
          { e with current_level := l }
      else
        { e with current_level := e.target_level, state := .decay }
    (e', clamp e'.current_level 0 1)
  | .decay =>
    let e' :=
      if e.decay > 0 then
        let rate := (e.target_level - e.sustain) / (e.decay * sampleRate)
        let l := e.current_level - rate
        if l ≤ e.sustain then
          { e with current_level := e.sustain, state := .sustain }
        else
          { e with current_level := l }
      else
        { e with current_level := e.sustain, state := .sustain }
    (e', clamp e'.current_level 0 1)
  | .sustain =>
    let e1 := { e with current_level := e.sustain }
    let e' :=
      if e.loop then
        if e.retrigger then
          { e1 with state := .attack, current_level := 0 }
        else
          { e1 with state := .attack }
      else e1
    (e', clamp e'.current_level 0 1)
  | .release =>
    let e' :=
      if e.release > 0 then
        let rate := e.current_level / (e.release * sampleRate)
        let l := e.current_level - rate
        if l ≤ 0 then
          { e with current_level := 0, state := .off }
        else
          { e with current_level := l }
      else
        { e with current_level := 0, state := .off }
    (e', clamp e'.current_level 0 1)

/-- `envelope_is_active` from `src/synth_engine.c`. -/
def envelopeIsActive (e : Envelope) : Bool :=
  e.state != .off

/-- Concrete envelope refuting C5 as stated: in Release with
`release = 1/2` s at sample rate 1, the per-step decrement
`current_level / (release * sample_rate) = 2` exceeds the current level 1,
and the code floors the level at 0 instead of reaching `1 - 2 = -1`. -/
def envC5cex : Envelope :=
  { envelopeInit with state := .release, release := 1/2, current_level := 1 }

/-- Counterexample to C5 as stated: an envelope in Release with
`release > 0` for which `envelope_process` does not decrease
`current_level` by `current_level / (release × sample_rate)` — the
decrement would cross 0, so the code sets the level to 0 (and the state to
Off) instead. -/
theorem c5_release_counterexample :
    (0 : ℚ) < envC5cex.release ∧
    envC5cex.state = EnvState.release ∧
    (envelopeProcess envC5cex 1).1.current_level ≠
      envC5cex.current_level -
        envC5cex.current_level / (envC5cex.release * 1) := by
  refine ⟨by norm_num [envC5cex, envelopeInit], rfl, ?_⟩
  norm_num [envC5cex, envelopeInit, envelopeProcess]

/-- C5 (amended): for an envelope in Release with `release > 0`,
`envelope_process` decreases `current_level` by
`current_level / (release × sample_rate)` — a decrement derived from the
current level, not the sustain level — whenever the decremented level stays
positive; when the decrement would reach or cross 0, the level is set to 0
and the state to Off; and with `release = 0` (a zero-duration stage) a
single call sets the level to 0 and the state to Off. -/
theorem c5_release_step (e : Envelope) (sr : ℚ) (h : e.state = .release) :
    (0 < e.release →
      (0 < e.current_level - e.current_level / (e.release * sr) →
        (envelopeProcess e sr).1.current_level =
          e.current_level - e.current_level / (e.release * sr) ∧
        (envelopeProcess e sr).1.state = .release) ∧
      (e.current_level - e.current_level / (e.release * sr) ≤ 0 →
        (envelopeProcess e sr).1.current_level = 0 ∧
        (envelopeProcess e sr).1.state = .off)) ∧
    (e.release = 0 →
      (envelopeProcess e sr).1.current_level = 0 ∧
      (envelopeProcess e sr).1.state = .off) := by
  refine ⟨fun hrel => ⟨fun hpos => ?_, fun hle => ?_⟩, fun hz => ?_⟩
  · simp only [envelopeProcess, h, if_pos hrel, if_neg (not_le.mpr hpos)]
    exact ⟨trivial, trivial⟩
  · simp only [envelopeProcess, h, if_pos hrel, if_pos hle]
    exact ⟨trivial, trivial⟩
  · have : ¬ (e.release > 0) := by rw [hz]; exact lt_irrefl 0
    simp only [envelopeProcess, h, if_neg this]
    exact ⟨trivial, trivial⟩

/-- Concrete envelope for the C5 witness: Release, `release = 1` s,
level `1/2`, sample rate 2, so the decrement is `1/4` and the level stays
positive. -/
def envC5wit : Envelope :=
  { envelopeInit with state := .release, release := 1, current_level := 1/2 }

/-- Witness for C5 (amended) at a concrete envelope. -/
theorem c5_release_step_witness :
    envC5wit.state = EnvState.release ∧
    (0 : ℚ) < envC5wit.release ∧
    (0 : ℚ) < envC5wit.current_level -
      envC5wit.current_level / (envC5wit.release * 2) ∧
    ((envelopeProcess envC5wit 2).1.current_level =
        envC5wit.current_level -
          envC5wit.current_level / (envC5wit.release * 2) ∧
      (envelopeProcess envC5wit 2).1.state = EnvState.release) :=
  ⟨rfl, by norm_num [envC5wit, envelopeInit],
   by norm_num [envC5wit, envelopeInit],
   ((c5_release_step envC5wit 2 rfl).1
       (by norm_num [envC5wit, envelopeInit])).1
     (by norm_num [envC5wit, envelopeInit])⟩

/-! ## Oscillator (`src/synth_engine.c`)

The transcendental library calls are threaded as function parameters:
`sin2pi x` stands for `sinf(x * TWO_PI)` and `c2r c` for
`cents_to_ratio(c) = powf(2, c/1200)`.  The global `rng_state` of
`fast_rand` is passed and returned explicitly. -/

/-- `WaveformType` from `src/synth_engine.h`. -/
inductive Waveform where
  | sine
  | saw
  | square
  | triangle
  | noise
  | wavetable
deriving DecidableEq, Repr

/-- `Oscillator` from `src/synth_engine.h`; the wavetable pointer/length
pair is modelled as a list (empty list = null pointer). -/
structure Oscillator where
  waveform : Waveform
  phase : ℚ
  frequency : ℚ
  amplitude : ℚ
  pulse_width : ℚ
  unison_voices : ℕ
  detune_cents : ℚ
  unison_spread : ℚ
  hard_sync : Bool
  sync_phase : ℚ
  fm_amount : ℚ
  rm_amount : ℚ
  phase_offset : ℚ
  phase_reset : Bool
  drift_amount : ℚ
  drift_rate : ℚ
  drift_phase : ℚ
  wavetable : List ℚ
  wavetable_size : ℤ
  wavetable_position : ℚ
deriving DecidableEq, Repr

/-- `osc_init` from `src/synth_engine.c` (after the `memset` to zero). -/
def oscInit : Oscillator :=
  { waveform := .saw, phase := 0, frequency := 440, amplitude := 1,
    pulse_width := 1/2, unison_voices := 1, detune_cents := 0,
    unison_spread := 1/2, hard_sync := false, sync_phase := 0,
    fm_amount := 0, rm_amount := 0, phase_offset := 0, phase_reset := false,
    drift_amount := 0, drift_rate := 0, drift_phase := 0,
    wavetable := [], wavetable_size := 2048, wavetable_position := 0 }

/-- `fast_rand` from `src/synth_engine.c`: 32-bit LCG step; returns the
sample in `[0,1)` and the new RNG state. -/
def fastRand (rng : ℕ) : ℚ × ℕ :=
  let r := (rng * 1664525 + 1013904223) % 4294967296
  (((r / 256 : ℕ) : ℚ) / 16777216, r)

/-- C truncation toward zero of a float/rational, as in `(int)pos`. -/
def qtrunc (x : ℚ) : ℤ :=
  if 0 ≤ x then ⌊x⌋ else ⌈x⌉

/-- `osc_generate_basic` from `src/synth_engine.c`: pure function of phase
(and pulse width), except that noise draws from the RNG. -/
def oscGenerateBasic (sin2pi : ℚ → ℚ) (osc : Oscillator) (phase pw : ℚ)
    (rng : ℕ) : ℚ × ℕ :=
  match osc.waveform with
  | .sine => (sin2pi phase, rng)
  | .saw => (phase * 2 - 1, rng)
  | .square => (if phase < pw then 1 else -1, rng)
  | .triangle =>
    (if phase < 1/2 then phase * 4 - 1 else 3 - phase * 4, rng)
  | .noise =>
    let fr := fastRand rng
    (fr.1 * 2 - 1, fr.2)
  | .wavetable =>
    if osc.wavetable ≠ [] ∧ 0 < osc.wavetable_size then
      let pos := phase * (osc.wavetable_size : ℚ)
      let index := qtrunc pos
      let frac := pos - (index : ℚ)
      let nextIndex := (index + 1) % osc.wavetable_size
      (lerp (osc.wavetable.getD index.toNat 0)
        (osc.wavetable.getD nextIndex.toNat 0) frac, rng)
    else
      (sin2pi phase, rng)

/-- The effective base frequency computed at the top of `osc_process`:
the stored frequency, scaled by `1 + fm_input*fm_amount` when FM is on and
by `1 + sinf(drift_phase*TWO_PI)*drift_amount*0.01` when drift is on. -/
def oscEffectiveFreq (sin2pi : ℚ → ℚ) (osc : Oscillator) (fm_input : ℚ) : ℚ :=
  let bf0 := osc.frequency
  let bf1 := if osc.fm_amount > 0 then bf0 * (1 + fm_input * osc.fm_amount) else bf0
  if osc.drift_amount > 0 then
    bf1 * (1 + sin2pi osc.drift_phase * osc.drift_amount * (1/100))
  else bf1

/-- The phase advance/wrap idiom at the end of `osc_process`: add the
increment, then subtract 1 once if the result reached 1. -/
def oscAdvancePhase (p inc : ℚ) : ℚ :=
  let p2 := p + inc
  if p2 ≥ 1 then p2 - 1 else p2

/-- `osc_process` from `src/synth_engine.c`: one sample of output plus the
updated oscillator state and RNG state. -/
def oscProcess (sin2pi c2r : ℚ → ℚ) (osc : Oscillator)
    (sample_rate fm_input : ℚ) (rng : ℕ) : Oscillator × ℚ × ℕ :=
  let baseFreq := oscEffectiveFreq sin2pi osc fm_input
  let driftPhase' :=
    if osc.drift_amount > 0 then
      let dp := osc.drift_phase + osc.drift_rate / sample_rate
      if dp ≥ 1 then dp - 1 else dp
    else osc.drift_phase
  let gen :=
    if 1 < osc.unison_voices then
      let n := osc.unison_voices
      let acc := (List.range n).foldl (fun acc i =>
        let detuneOffset :=
          if 0 < i then
            (((i : ℚ) / ((n : ℚ) - 1)) - 1/2) * osc.detune_cents *
              osc.unison_spread
          else 0
        let voiceFreq := baseFreq * c2r detuneOffset
        let detuneRat := voiceFreq / max baseFreq (1/10000)
        let vp0 := osc.phase * detuneRat + (i : ℚ) * osc.phase_offset
        let vp := vp0 - (⌊vp0⌋ : ℚ)
        let s := oscGenerateBasic sin2pi osc vp osc.pulse_width acc.2
        (acc.1 + s.1, s.2)) ((0 : ℚ), rng)
      (acc.1 / (n : ℚ), acc.2)
    else
      oscGenerateBasic sin2pi osc osc.phase osc.pulse_width rng
  let syncHit := osc.hard_sync ∧ osc.sync_phase ≥ 1
  let phase1 := if syncHit then 0 else osc.phase
  let syncPhase1 := if syncHit then 0 else osc.sync_phase
  let inc := baseFreq / sample_rate
  let out1 := gen.1 * osc.amplitude
  let out2 :=
    if osc.rm_amount > 0 then lerp out1 (out1 * fm_input) osc.rm_amount
    else out1
  ({ osc with phase := oscAdvancePhase phase1 inc,
              sync_phase := oscAdvancePhase syncPhase1 inc,
              drift_phase := driftPhase' },
   out2, gen.2)

/-- Concrete oscillator refuting C9 as stated: frequency three times the
sample rate.  The single conditional subtract leaves the phase at 2 ∉ [0,1). -/
def oscC9cex : Oscillator :=
  { oscInit with frequency := 3 }

/-- Counterexample to C9 as stated: with frequency 3 at sample rate 1 (no
FM, no drift), a phase of 0 advances to 3 and the single wrap leaves it at
2, outside [0,1) — the wrap is one conditional subtraction, not a modulo. -/
theorem c9_phase_counterexample :
    0 ≤ oscC9cex.phase ∧ oscC9cex.phase < 1 ∧
    (oscProcess (fun _ => 0) (fun _ => 1) oscC9cex 1 0 0).1.phase = 2 ∧
    ¬ ((oscProcess (fun _ => 0) (fun _ => 1) oscC9cex 1 0 0).1.phase < 1) := by
  refine ⟨le_refl 0, by norm_num [oscC9cex, oscInit], ?_, ?_⟩ <;>
    norm_num [oscC9cex, oscInit, oscProcess, oscEffectiveFreq,
      oscAdvancePhase, oscGenerateBasic]

theorem oscAdvancePhase_mem (p inc : ℚ) (hp0 : 0 ≤ p) (hp1 : p < 1)
    (hi0 : 0 ≤ inc) (hi1 : inc < 1) :
    0 ≤ oscAdvancePhase p inc ∧ oscAdvancePhase p inc < 1 := by
  unfold oscAdvancePhase
  by_cases h : p + inc ≥ 1
  · rw [if_pos h]
    constructor <;> linarith
  · rw [if_neg h]
    push_neg at h
    exact ⟨by linarith, h⟩

/-- C9 (amended): whenever the effective phase increment — the frequency
as modified by FM depth and drift, divided by the sample rate — lies in
[0,1), an oscillator whose phase is in [0,1) before `osc_process` has its
phase again in [0,1) after the call, for every waveform, unison, sync and
RM setting. -/
theorem c9_phase_wrap (sin2pi c2r : ℚ → ℚ) (osc : Oscillator)
    (sample_rate fm_input : ℚ) (rng : ℕ)
    (h0 : 0 ≤ osc.phase) (h1 : osc.phase < 1)
    (h2 : 0 ≤ oscEffectiveFreq sin2pi osc fm_input / sample_rate)
    (h3 : oscEffectiveFreq sin2pi osc fm_input / sample_rate < 1) :
    0 ≤ (oscProcess sin2pi c2r osc sample_rate fm_input rng).1.phase ∧
    (oscProcess sin2pi c2r osc sample_rate fm_input rng).1.phase < 1 := by
  have hphase :
      (oscProcess sin2pi c2r osc sample_rate fm_input rng).1.phase =
        oscAdvancePhase
          (if osc.hard_sync ∧ osc.sync_phase ≥ 1 then 0 else osc.phase)
          (oscEffectiveFreq sin2pi osc fm_input / sample_rate) := rfl
  rw [hphase]
  by_cases hs : osc.hard_sync ∧ osc.sync_phase ≥ 1
  · rw [if_pos hs]
    exact oscAdvancePhase_mem _ _ (le_refl 0) one_pos h2 h3
  · rw [if_neg hs]
    exact oscAdvancePhase_mem _ _ h0 h1 h2 h3

/-- Witness for C9 (amended): a defaulted oscillator (440 Hz) at sample
rate 44100 with phase 1/2. -/
theorem c9_phase_wrap_witness :
    0 ≤ ({ oscInit with phase := 1/2 } : Oscillator).phase ∧
    ({ oscInit with phase := 1/2 } : Oscillator).phase < 1 ∧
    0 ≤ oscEffectiveFreq (fun _ => 0) { oscInit with phase := 1/2 } 0 / 44100 ∧
    oscEffectiveFreq (fun _ => 0) { oscInit with phase := 1/2 } 0 / 44100 < 1 ∧
    (0 ≤ (oscProcess (fun _ => 0) (fun _ => 1) { oscInit with phase := 1/2 }
        44100 0 0).1.phase ∧
      (oscProcess (fun _ => 0) (fun _ => 1) { oscInit with phase := 1/2 }
        44100 0 0).1.phase < 1) :=
  ⟨by norm_num [oscInit], by norm_num [oscInit],
   by norm_num [oscInit, oscEffectiveFreq],
   by norm_num [oscInit, oscEffectiveFreq],
   c9_phase_wrap (fun _ => 0) (fun _ => 1) _ 44100 0 0
     (by norm_num [oscInit]) (by norm_num [oscInit])
     (by norm_num [oscInit, oscEffectiveFreq])
     (by norm_num [oscInit, oscEffectiveFreq])⟩

/-! ## Filter, voice and engine state (`src/synth_engine.h`) -/

/-- `FilterMode` from `src/synth_engine.h`. -/
inductive FilterMode where
  | lp
  | hp
  | bp
  | notch
  | allpass
deriving DecidableEq, Repr

/-- `Filter` from `src/synth_engine.h` (the DSP state; its per-sample
processing is not needed by the claims below). -/
structure Filter where
  mode : FilterMode
  cutoff : ℚ
  resonance : ℚ
  keytrack : ℚ
  env_amount : ℚ
  cutoff_actual : ℚ
  resonance_actual : ℚ
  low : ℚ
  high : ℚ
  band : ℚ
  notch : ℚ
  f : ℚ
  q : ℚ
deriving DecidableEq, Repr

/-- The integer-to-mode clamp in the `PARAM_FILTER_MODE` case of
`synth_engine_apply_param`: values below `FILTER_LP` (0) clamp to LP and
values at or above `FILTER_COUNT` (5) clamp to ALLPASS (4). -/
def filterModeOfInt (i : ℤ) : FilterMode :=
  if i ≤ 0 then .lp
  else if i = 1 then .hp
  else if i = 2 then .bp
  else if i = 3 then .notch
  else .allpass

/-- `VoiceState` from `src/synth_engine.h`. -/
inductive VoiceState where
  | off
  | attack
  | hold
  | release
deriving DecidableEq, Repr

/-- `Voice` from `src/synth_engine.h`. -/
structure Voice where
  state : VoiceState
  midi_note : ℤ
  frequency : ℚ
  velocity : ℚ
  osc1 : Oscillator
  osc2 : Oscillator
  filter : Filter
  env_amp : Envelope
  env_filter : Envelope
  env_pitch : Envelope
  pan : ℚ
  pitch_bend : ℚ
  glide_rate : ℚ
  current_pitch : ℚ
  target_pitch : ℚ
  note_on_time : ℕ
  note_off_time : ℕ
  random_value : ℚ
deriving DecidableEq, Repr

/-- `MAX_VOICES` from `src/synth_engine.h`: the fixed voice-pool size. -/
abbrev MAX_VOICES : ℕ := 8

/-- `SynthEngine` from `src/synth_engine.h` (the fields read or written by
the modelled operations; the per-block render path is treated separately
over `ℝ`).  The voice pool is the fixed family `voices : Fin MAX_VOICES →
Voice`. -/
@[ext]
structure SynthEngine where
  sample_rate : ℚ
  tempo : ℚ
  voices : Fin MAX_VOICES → Voice
  master_volume : ℚ
  master_tune : ℚ
  pitch_bend_range : ℤ
  mono_mode : Bool
  legato_mode : Bool
  glide_time : ℚ
  filter_cutoff : ℚ
  filter_resonance : ℚ
  filter_mode : FilterMode
  filter_env_amount : ℚ
  env_attack : ℚ
  env_decay : ℚ
  env_sustain : ℚ
  env_release : ℚ
  limiter_threshold : ℚ
  limiter_release : ℚ
  limiter_gain : ℚ
  sample_counter : ℕ

/-- `voice_is_active` from `src/synth_engine.c`. -/
def voiceIsActive (v : Voice) : Bool :=
  v.state != .off

/-- `voice_note_on` from `src/synth_engine.c`; `midiToFreq` stands for
`midi_to_freq` (`440 * powf(2, (note-69)/12)`), threaded as a parameter
because it is transcendental. -/
def voiceNoteOn (midiToFreq : ℤ → ℚ) (v : Voice) (note : ℤ) (velocity : ℚ)
    (time : ℕ) : Voice :=
  let freq := midiToFreq note
  let v1 := { v with state := .attack, midi_note := note, frequency := freq,
                     velocity := velocity, note_on_time := time,
                     target_pitch := freq,
                     env_amp := envelopeTrigger v.env_amp velocity,
                     env_filter := envelopeTrigger v.env_filter velocity,
                     env_pitch := envelopeTrigger v.env_pitch velocity }
  let v2 :=
    if v.osc1.phase_reset then { v1 with osc1 := { v1.osc1 with phase := 0 } }
    else v1
  let v3 :=
    if v.osc2.phase_reset then { v2 with osc2 := { v2.osc2 with phase := 0 } }
    else v2
  if v.glide_rate ≤ 0 then { v3 with current_pitch := v3.target_pitch } else v3

/-- `voice_note_off` from `src/synth_engine.c`: enter Release and release
all three envelopes. -/
def voiceNoteOff (v : Voice) (time : ℕ) : Voice :=
  { v with state := .release, note_off_time := time,
           env_amp := envelopeRelease v.env_amp,
           env_filter := envelopeRelease v.env_filter,
           env_pitch := envelopeRelease v.env_pitch }

/-- `synth_set_tempo` from `src/synth_engine.c`. -/
def synthSetTempo (s : SynthEngine) (bpm : ℚ) : SynthEngine :=
  { s with tempo := clamp bpm 20 300 }

/-- `synth_allocate_voice` from `src/synth_engine.c`: the first Off voice
if any, otherwise the scan from voice 1 that keeps the index with the
strictly smallest `note_on_time` (voice 0 as the initial candidate). -/
def synthAllocateVoice (s : SynthEngine) : Fin MAX_VOICES :=
  match (List.finRange MAX_VOICES).find?
      (fun i => (s.voices i).state == VoiceState.off) with
  | some i => i
  | none =>
    ((List.finRange MAX_VOICES).drop 1).foldl
      (fun oldest i =>
        if (s.voices i).note_on_time < (s.voices oldest).note_on_time then i
        else oldest) 0

/-- `synth_note_on` from `src/synth_engine.c`. -/
def synthNoteOn (midiToFreq : ℤ → ℚ) (s : SynthEngine) (note : ℤ)
    (velocity : ℚ) : SynthEngine :=
  if s.mono_mode then
    let voice := s.voices 0
    let voice1 :=
      if s.legato_mode && voiceIsActive voice then
        { voice with midi_note := note, target_pitch := midiToFreq note }
      else
        voiceNoteOn midiToFreq voice note velocity s.sample_counter
    { s with voices :=
        Function.update s.voices 0 { voice1 with glide_rate := s.glide_time } }
  else
    let j := synthAllocateVoice s
    let voice1 := voiceNoteOn midiToFreq (s.voices j) note velocity s.sample_counter
    { s with voices :=
        Function.update s.voices j { voice1 with glide_rate := s.glide_time } }

/-- `synth_note_off` from `src/synth_engine.c`: release every voice that
holds the note and is neither Off nor already in Release. -/
def synthNoteOff (s : SynthEngine) (note : ℤ) : SynthEngine :=
  { s with voices := fun i =>
      if (s.voices i).midi_note = note ∧ (s.voices i).state ≠ .off ∧
          (s.voices i).state ≠ .release then
        voiceNoteOff (s.voices i) s.sample_counter
      else
        s.voices i }

/-- `synth_all_notes_off` from `src/synth_engine.c`. -/
def synthAllNotesOff (s : SynthEngine) : SynthEngine :=
  { s with voices := fun i =>
      if voiceIsActive (s.voices i) then
        voiceNoteOff (s.voices i) s.sample_counter
      else
        s.voices i }

/-- `synth_engine_apply_param` from `src/synth_engine.c`: applies one
parameter message and reports whether the identifier was recognized. -/
def synthEngineApplyParam (s : SynthEngine) (m : ParamMsg) :
    SynthEngine × Bool :=
  match m.id with
  | .masterVolume =>
    ({ s with master_volume := clamp (paramMsgGetFloat m) 0 1 }, true)
  | .tempo =>
    (synthSetTempo s (paramMsgGetFloat m), true)
  | .filterCutoff =>
    let cutoff := clamp (paramMsgGetFloat m) 20 20000
    ({ s with filter_cutoff := cutoff,
              voices := fun i =>
                { s.voices i with filter :=
                    { (s.voices i).filter with cutoff := cutoff } } }, true)
  | .filterResonance =>
    let resonance := clamp (paramMsgGetFloat m) 0 1
    ({ s with filter_resonance := resonance,
              voices := fun i =>
                { s.voices i with filter :=
                    { (s.voices i).filter with resonance := resonance } } }, true)
  | .filterMode =>
    let mode := filterModeOfInt (paramMsgGetInt m)
    ({ s with filter_mode := mode,
              voices := fun i =>
                { s.voices i with filter :=
                    { (s.voices i).filter with mode := mode } } }, true)
  | .filterEnvAmount =>
    let amount := clamp (paramMsgGetFloat m) (-1) 1
    ({ s with filter_env_amount := amount,
              voices := fun i =>
                { s.voices i with filter :=
                    { (s.voices i).filter with env_amount := amount } } }, true)
  | .envAmpAttack =>
    let attack := clamp (paramMsgGetFloat m) (1/1000) 2
    ({ s with env_attack := attack,
              voices := fun i =>
                { s.voices i with env_amp :=
                    { (s.voices i).env_amp with attack := attack } } }, true)
  | .envAmpDecay =>
    let decay := clamp (paramMsgGetFloat m) (1/1000) 2
    ({ s with env_decay := decay,
              voices := fun i =>
                { s.voices i with env_amp :=
                    { (s.voices i).env_amp with decay := decay } } }, true)
  | .envAmpSustain =>
    let sustain := clamp (paramMsgGetFloat m) 0 1
    ({ s with env_sustain := sustain,
              voices := fun i =>
                { s.voices i with env_amp :=
                    { (s.voices i).env_amp with sustain := sustain } } }, true)
  | .envAmpRelease =>
    let rel := clamp (paramMsgGetFloat m) (1/1000) 5
    ({ s with env_release := rel,
              voices := fun i =>
                { s.voices i with env_amp :=
                    { (s.voices i).env_amp with release := rel } } }, true)
  | .panicId =>
    (synthAllNotesOff s, true)
  | _ => (s, false)

theorem synthAllocOldest (s : SynthEngine) :
    ∀ (l : List (Fin MAX_VOICES)) (b : Fin MAX_VOICES),
      (s.voices (l.foldl
          (fun oldest i =>
            if (s.voices i).note_on_time < (s.voices oldest).note_on_time then i
            else oldest) b)).note_on_time ≤ (s.voices b).note_on_time ∧
      ∀ i ∈ l,
        (s.voices (l.foldl
            (fun oldest i =>
              if (s.voices i).note_on_time < (s.voices oldest).note_on_time
              then i else oldest) b)).note_on_time ≤
          (s.voices i).note_on_time := by
  intro l
  induction l with
  | nil =>
    intro b
    exact ⟨le_refl _, fun i hi => absurd hi (List.not_mem_nil i)⟩
  | cons a t ih =>
    intro b
    simp only [List.foldl_cons]
    by_cases h : (s.voices a).note_on_time < (s.voices b).note_on_time
    · rw [if_pos h]
      obtain ⟨h1, h2⟩ := ih a
      refine ⟨le_trans h1 (le_of_lt h), fun i hi => ?_⟩
      rcases List.mem_cons.mp hi with rfl | hit
      · exact h1
      · exact h2 i hit
    · rw [if_neg h]
      obtain ⟨h1, h2⟩ := ih b
      push_neg at h
      refine ⟨h1, fun i hi => ?_⟩
      rcases List.mem_cons.mp hi with rfl | hit
      · exact le_trans h1 h
      · exact h2 i hit

/-- C3: in polyphonic (non-mono) mode, `synth_note_on` allocates a voice
with state `VOICE_OFF` when one exists; otherwise the allocated voice has
the smallest `note_on_time` of the pool (oldest-wins, not quietest-wins);
the chosen voice — an index into the fixed pool of `MAX_VOICES = 8` — is
retriggered with the new note via `voice_note_on` (plus the engine glide
time) and every other voice is left unchanged. -/
theorem c3_poly_voice_allocation (midiToFreq : ℤ → ℚ) (s : SynthEngine)
    (note : ℤ) (velocity : ℚ) (hmono : s.mono_mode = false) :
    ((∃ i, (s.voices i).state = VoiceState.off) →
      (s.voices (synthAllocateVoice s)).state = VoiceState.off) ∧
    ((∀ i, (s.voices i).state ≠ VoiceState.off) →
      ∀ i, (s.voices (synthAllocateVoice s)).note_on_time ≤
        (s.voices i).note_on_time) ∧
    (synthNoteOn midiToFreq s note velocity).voices =
      Function.update s.voices (synthAllocateVoice s)
        { voiceNoteOn midiToFreq (s.voices (synthAllocateVoice s)) note
            velocity s.sample_counter with glide_rate := s.glide_time } ∧
    (∀ i, i ≠ synthAllocateVoice s →
      (synthNoteOn midiToFreq s note velocity).voices i = s.voices i) := by
  have hupd : (synthNoteOn midiToFreq s note velocity).voices =
      Function.update s.voices (synthAllocateVoice s)
        { voiceNoteOn midiToFreq (s.voices (synthAllocateVoice s)) note
            velocity s.sample_counter with glide_rate := s.glide_time } := by
    simp only [synthNoteOn, hmono]
    rfl
  refine ⟨?_, ?_, hupd, ?_⟩
  · rintro ⟨i, hi⟩
    unfold synthAllocateVoice
    cases hfind : (List.finRange MAX_VOICES).find?
        (fun i => (s.voices i).state == VoiceState.off) with
    | none =>
      exfalso
      have := List.find?_eq_none.mp hfind i (List.mem_finRange i)
      simp [hi] at this
    | some j =>
      have hj := List.find?_some hfind
      simpa using hj
  · intro hall
    unfold synthAllocateVoice
    cases hfind : (List.finRange MAX_VOICES).find?
        (fun i => (s.voices i).state == VoiceState.off) with
    | some j =>
      exfalso
      have hj := List.find?_some hfind
      exact hall j (by simpa using hj)
    | none =>
      intro i
      obtain ⟨h1, h2⟩ := synthAllocOldest s ((List.finRange MAX_VOICES).drop 1) 0
      by_cases hz : i = 0
      · exact hz ▸ h1
      · have hmem : ∀ k : Fin MAX_VOICES, k ≠ 0 →
            k ∈ (List.finRange MAX_VOICES).drop 1 := by decide
        exact h2 i (hmem i hz)
  · intro i hne
    rw [hupd]
    exact Function.update_noteq hne _ _

/-- A stand-in for the transcendental `midi_to_freq` used to instantiate
witnesses (any `ℤ → ℚ` works for the allocated claims). -/
def midiToFreq0 : ℤ → ℚ := fun n => (n : ℚ)

/-- A concrete `Filter` record for witness engines. -/
def filter0 : Filter :=
  { mode := .lp, cutoff := 8000, resonance := 3/10, keytrack := 0,
    env_amount := 0, cutoff_actual := 8000, resonance_actual := 3/10,
    low := 0, high := 0, band := 0, notch := 0, f := 0, q := 1 }

/-- A concrete `Voice` record (everything off / defaulted). -/
def voice0 : Voice :=
  { state := .off, midi_note := 0, frequency := 0, velocity := 0,
    osc1 := oscInit, osc2 := oscInit, filter := filter0,
    env_amp := envelopeInit, env_filter := envelopeInit,
    env_pitch := envelopeInit, pan := 0, pitch_bend := 0, glide_rate := 0,
    current_pitch := 0, target_pitch := 0, note_on_time := 0,
    note_off_time := 0, random_value := 0 }

/-- A concrete polyphonic engine whose voices are all Off. -/
def engine0 : SynthEngine :=
  { sample_rate := 44100, tempo := 120, voices := fun _ => voice0,
    master_volume := 7/10, master_tune := 0, pitch_bend_range := 2,
    mono_mode := false, legato_mode := false, glide_time := 0,
    filter_cutoff := 8000, filter_resonance := 3/10, filter_mode := .lp,
    filter_env_amount := 0, env_attack := 1/100, env_decay := 1/10,
    env_sustain := 7/10, env_release := 3/10, limiter_threshold := 19/20,
    limiter_release := 1/10, limiter_gain := 1, sample_counter := 0 }

/-- Witness for C3: on the all-off engine, the allocated voice is Off and
`synth_note_on` rewrites exactly that pool slot. -/
theorem c3_poly_voice_allocation_witness :
    engine0.mono_mode = false ∧
    (engine0.voices (synthAllocateVoice engine0)).state = VoiceState.off ∧
    (synthNoteOn midiToFreq0 engine0 60 (4/5)).voices =
      Function.update engine0.voices (synthAllocateVoice engine0)
        { voiceNoteOn midiToFreq0 (engine0.voices (synthAllocateVoice engine0))
            60 (4/5) engine0.sample_counter with
          glide_rate := engine0.glide_time } :=
  ⟨rfl,
   (c3_poly_voice_allocation midiToFreq0 engine0 60 (4/5) rfl).1 ⟨0, rfl⟩,
   (c3_poly_voice_allocation midiToFreq0 engine0 60 (4/5) rfl).2.2.1⟩

/-- C6: `synth_engine_apply_param` returns `true` exactly when the
message's identifier is one of master volume, tempo, the filter
cutoff/resonance/mode/env-amount fields, the amplitude-envelope ADSR
fields, or the all-notes-off panic; for every other identifier it returns
`false` and leaves the engine (all voices included) unchanged. -/
theorem c6_apply_param_recognized (s : SynthEngine) (m : ParamMsg) :
    ((synthEngineApplyParam s m).2 = true ↔
      (m.id = .masterVolume ∨ m.id = .tempo ∨ m.id = .filterCutoff ∨
        m.id = .filterResonance ∨ m.id = .filterMode ∨
        m.id = .filterEnvAmount ∨ m.id = .envAmpAttack ∨
        m.id = .envAmpDecay ∨ m.id = .envAmpSustain ∨
        m.id = .envAmpRelease ∨ m.id = .panicId)) ∧
    ((synthEngineApplyParam s m).2 = false →
      (synthEngineApplyParam s m).1 = s) := by
  rcases m with ⟨id, v⟩
  cases id <;> simp [synthEngineApplyParam]

/-- Witness for C6 at an unhandled identifier (an FX parameter): the call
reports `false` and the engine is unchanged. -/
theorem c6_apply_param_recognized_witness :
    (synthEngineApplyParam engine0 ⟨.fxDistortionDrive, .float 1⟩).2 = false ∧
    (synthEngineApplyParam engine0 ⟨.fxDistortionDrive, .float 1⟩).1 =
      engine0 :=
  ⟨rfl,
   (c6_apply_param_recognized engine0 ⟨.fxDistortionDrive, .float 1⟩).2 rfl⟩

/-- C7: `synth_note_off(note)` moves every voice holding `note` whose
state is neither Off nor Release into Release — releasing its amplitude,
filter and pitch envelopes and stamping the note-off time — and leaves
every other voice unchanged (so all duplicated holders of the note are
released). -/
theorem c7_note_off_releases (s : SynthEngine) (note : ℤ)
    (i : Fin MAX_VOICES) :
    ((s.voices i).midi_note = note ∧ (s.voices i).state ≠ VoiceState.off ∧
        (s.voices i).state ≠ VoiceState.release →
      (synthNoteOff s note).voices i =
        voiceNoteOff (s.voices i) s.sample_counter ∧
      ((synthNoteOff s note).voices i).state = VoiceState.release ∧
      ((synthNoteOff s note).voices i).env_amp.state = EnvState.release ∧
      ((synthNoteOff s note).voices i).env_filter.state = EnvState.release ∧
      ((synthNoteOff s note).voices i).env_pitch.state = EnvState.release) ∧
    (¬ ((s.voices i).midi_note = note ∧ (s.voices i).state ≠ VoiceState.off ∧
        (s.voices i).state ≠ VoiceState.release) →
      (synthNoteOff s note).voices i = s.voices i) := by
  constructor
  · intro h
    have hv : (synthNoteOff s note).voices i =
        voiceNoteOff (s.voices i) s.sample_counter := by
      show (if (s.voices i).midi_note = note ∧ (s.voices i).state ≠ .off ∧
          (s.voices i).state ≠ .release then
          voiceNoteOff (s.voices i) s.sample_counter else s.voices i) =
        voiceNoteOff (s.voices i) s.sample_counter
      rw [if_pos h]
    exact ⟨hv, by rw [hv]; exact ⟨rfl, rfl, rfl, rfl⟩⟩
  · intro h
    show (if (s.voices i).midi_note = note ∧ (s.voices i).state ≠ .off ∧
        (s.voices i).state ≠ .release then
        voiceNoteOff (s.voices i) s.sample_counter else s.voices i) =
      s.voices i
    rw [if_neg h]

/-- A concrete engine holding note 60 on every voice (state Attack). -/
def engine1 : SynthEngine :=
  { engine0 with voices := fun _ =>
      { voice0 with state := .attack, midi_note := 60 } }

/-- Witness for C7: on `engine1`, voice 0 holds note 60 in Attack and is
moved to Release with all three envelopes released. -/
theorem c7_note_off_releases_witness :
    ((engine1.voices 0).midi_note = 60 ∧
      (engine1.voices 0).state ≠ VoiceState.off ∧
      (engine1.voices 0).state ≠ VoiceState.release) ∧
    ((synthNoteOff engine1 60).voices 0 =
        voiceNoteOff (engine1.voices 0) engine1.sample_counter ∧
      ((synthNoteOff engine1 60).voices 0).state = VoiceState.release ∧
      ((synthNoteOff engine1 60).voices 0).env_amp.state = EnvState.release ∧
      ((synthNoteOff engine1 60).voices 0).env_filter.state =
        EnvState.release ∧
      ((synthNoteOff engine1 60).voices 0).env_pitch.state =
        EnvState.release) :=
  ⟨⟨rfl, by decide, by decide⟩,
   (c7_note_off_releases engine1 60 0).1 ⟨rfl, by decide, by decide⟩⟩

theorem synthAllNotesOff_idem (s : SynthEngine) :
    synthAllNotesOff (synthAllNotesOff s) = synthAllNotesOff s := by
  have hdefv : ∀ (t : SynthEngine) (i : Fin MAX_VOICES),
      (synthAllNotesOff t).voices i =
        (if voiceIsActive (t.voices i) then
          voiceNoteOff (t.voices i) t.sample_counter else t.voices i) :=
    fun _ _ => rfl
  have hdefc : ∀ t : SynthEngine,
      (synthAllNotesOff t).sample_counter = t.sample_counter := fun _ => rfl
  have hv : ∀ i, (synthAllNotesOff (synthAllNotesOff s)).voices i =
      (synthAllNotesOff s).voices i := by
    intro i
    rw [hdefv (synthAllNotesOff s) i, hdefc, hdefv s i]
    by_cases h : voiceIsActive (s.voices i) = true
    · rw [if_pos h]
      rfl
    · rw [if_neg h, if_neg h]
  ext
  all_goals try rfl
  apply hv

/-- C8: applying the same parameter message twice in succession with
`synth_engine_apply_param` (no processing in between) leaves the engine in
exactly the state reached after one application — including the
`PARAM_PANIC` all-notes-off message. -/
theorem c8_apply_param_idempotent (s : SynthEngine) (m : ParamMsg) :
    synthEngineApplyParam (synthEngineApplyParam s m).1 m =
      synthEngineApplyParam s m := by
  rcases m with ⟨id, v⟩
  cases id
  all_goals try rfl
  show (synthAllNotesOff (synthAllNotesOff s), true) = (synthAllNotesOff s, true)
  rw [synthAllNotesOff_idem]

/-! ## Output stage of `synth_process` (`src/synth_engine.c`), over `ℝ`

The per-frame post-mix chain of `synth_process` — voice-sum mixdown,
energy-preserving normalization, master volume, the peak limiter, and the
final `soft_clip` — is modelled over `ℝ` (so that `tanhf` becomes
`Real.tanh` and `expf`/`sqrtf` become `Real.exp`/`Real.sqrt`).  The
per-voice DSP outputs enter as an arbitrary list of (left, right) pairs,
one per active voice, which quantifies over every possible engine state. -/

/-- `soft_clip` from `src/synth_engine.c`: hard branches outside `[-1,1]`,
`tanhf(x*1.5)/tanhf(1.5)` inside. -/
noncomputable def softClip (x : ℝ) : ℝ :=
  if x > 1 then 1
  else if x < -1 then -1
  else Real.tanh (x * (3/2)) / Real.tanh (3/2)

theorem tanh_mono {a b : ℝ} (hab : a ≤ b) : Real.tanh a ≤ Real.tanh b := by
  rw [Real.tanh_eq_sinh_div_cosh, Real.tanh_eq_sinh_div_cosh,
    div_le_div_iff₀ (Real.cosh_pos a) (Real.cosh_pos b)]
  have h : (0 : ℝ) ≤ Real.sinh (b - a) :=
    Real.sinh_nonneg_iff.mpr (sub_nonneg.mpr hab)
  rw [Real.sinh_sub] at h
  have hc := mul_comm (Real.cosh b) (Real.sinh a)
  linarith

theorem tanh_pos_of_pos {x : ℝ} (hx : 0 < x) : 0 < Real.tanh x := by
  rw [Real.tanh_eq_sinh_div_cosh]
  exact div_pos (Real.sinh_pos_iff.mpr hx) (Real.cosh_pos x)

theorem softClip_mem (x : ℝ) : softClip x ∈ Set.Icc (-1 : ℝ) 1 := by
  unfold softClip
  by_cases h1 : x > 1
  · rw [if_pos h1]
    constructor <;> norm_num
  · rw [if_neg h1]
    by_cases h2 : x < -1
    · rw [if_pos h2]
      constructor <;> norm_num
    · rw [if_neg h2]
      push_neg at h1 h2
      have htpos : 0 < Real.tanh (3/2 : ℝ) := tanh_pos_of_pos (by norm_num)
      have hub : Real.tanh (x * (3/2)) ≤ Real.tanh (3/2) :=
        tanh_mono (by linarith)
      have hlb : -Real.tanh (3/2 : ℝ) ≤ Real.tanh (x * (3/2)) := by
        have := tanh_mono (show -(3/2 : ℝ) ≤ x * (3/2) by linarith)
        rwa [Real.tanh_neg] at this
      constructor
      · rw [le_div_iff₀ htpos]
        linarith
      · rw [div_le_one htpos]
        exact hub

/-- The body of the per-frame loop of `synth_process` after the voice
loop: given the active voices' (left, right) outputs, mix them, apply the
`1/sqrt(active_voices)` energy-preserving scale, the master volume, the
peak-driven limiter (instant gain reduction above threshold, exponential
release below it), and the final soft clip.  Returns the written stereo
sample and the updated `limiter_gain`. -/
noncomputable def synthProcessFrame (volume threshold limRelease sample_rate
    gain : ℝ) (vouts : List (ℝ × ℝ)) : (ℝ × ℝ) × ℝ :=
  let left0 := (vouts.map Prod.fst).sum
  let right0 := (vouts.map Prod.snd).sum
  let activeVoices := vouts.length
  let scale := 1 / Real.sqrt (activeVoices : ℝ)
  let left1 := if 0 < activeVoices then left0 * scale else left0
  let right1 := if 0 < activeVoices then right0 * scale else right0
  let left2 := left1 * volume
  let right2 := right1 * volume
  let peak := max |left2| |right2|
  let gain1 :=
    if peak > threshold then min gain (threshold / peak)
    else gain + (1 - gain) * (1 - Real.exp (-1 / (limRelease * sample_rate)))
  ((softClip (left2 * gain1), softClip (right2 * gain1)), gain1)

/-- The interleaved stereo buffer written by `synth_process`: one frame
after another, threading the limiter gain. -/
noncomputable def synthProcessOut (volume threshold limRelease sample_rate : ℝ) :
    ℝ → List (List (ℝ × ℝ)) → List ℝ
  | _, [] => []
  | gain, f :: fs =>
    let r := synthProcessFrame volume threshold limRelease sample_rate gain f
    r.1.1 :: r.1.2 ::
      synthProcessOut volume threshold limRelease sample_rate r.2 fs

/-- C10: every sample `synth_process` writes into the interleaved stereo
output buffer lies in `[-1, 1]` — for every sequence of per-voice outputs,
master volume, limiter threshold/release and starting limiter gain —
because the final soft clip maps every real input into `[-1, 1]`. -/
theorem c10_output_in_unit_range (volume threshold limRelease sample_rate
    gain : ℝ) (frames : List (List (ℝ × ℝ))) :
    (∀ x ∈ synthProcessOut volume threshold limRelease sample_rate gain
        frames, x ∈ Set.Icc (-1 : ℝ) 1) ∧
    (∀ y : ℝ, softClip y ∈ Set.Icc (-1 : ℝ) 1) := by
  refine ⟨?_, softClip_mem⟩
  induction frames generalizing gain with
  | nil =>
    intro x hx
    simp [synthProcessOut] at hx
  | cons f fs ih =>
    intro x hx
    simp only [synthProcessOut, List.mem_cons] at hx
    rcases hx with rfl | rfl | hx
    · exact softClip_mem _
    · exact softClip_mem _
    · exact ih _ x hx

theorem softClip_zero : softClip 0 = 0 := by
  unfold softClip
  rw [if_neg (by norm_num), if_neg (by norm_num)]
  simp [Real.tanh_zero]

/-- Witness for C10 at a concrete one-frame render with no active voices:
the written sample 0 is in the buffer and lies in `[-1,1]`. -/
theorem c10_output_in_unit_range_witness :
    (0 : ℝ) ∈ synthProcessOut 1 1 1 1 1 [[]] ∧
    (0 : ℝ) ∈ Set.Icc (-1 : ℝ) 1 := by
  have hout : synthProcessOut 1 1 1 1 1 [[]] = [0, 0] := by
    norm_num [synthProcessOut, synthProcessFrame, softClip_zero]
  have hmem : (0 : ℝ) ∈ synthProcessOut 1 1 1 1 1 [[]] := by
    rw [hout]
    exact List.mem_cons_self 0 [0]
  exact ⟨hmem,
    (c10_output_in_unit_range 1 1 1 1 1 [[]]).1 0 hmem⟩

end Synth
